import Mathlib

set_option maxRecDepth 20000

/-
Verification of the retrieval-and-context-assembly pipeline of the
ai-yoga-teacher RAG chat service.  The Python sources are shallowly
embedded: numbers that the code manipulates as floats are modelled as
rationals, a raised exception is modelled as the value none, and the
external collaborators (FAISS index, embedding endpoint, completion API)
appear as explicit parameters carrying the values or failures they
return.
-/

namespace YogaTeacher

/-- Minimum similarity score for a retrieved document to be kept
(config.py, SIMILARITY_THRESHOLD = 0.5). -/
def SIMILARITY_THRESHOLD : ℚ := 1/2

/-- Number of conversation pairs kept when formatting history for the
completion API (config.py, MAX_HISTORY_LENGTH = 10). -/
def MAX_HISTORY_LENGTH : ℕ := 10

/-- Number of documents retrieved by default (config.py, TOP_K_RESULTS). -/
def TOP_K_RESULTS : ℕ := 3

/-- Fixed system persona sent as the first prompt message
(config.py, SYSTEM_PROMPT). -/
def SYSTEM_PROMPT : String :=
  "You are Yoga Master Dhalsim, an expert AI Yoga Teacher with deep knowledge of Hatha Yoga, yoga philosophy, and holistic wellness.\n\nYour role is to:\n- Provide accurate, safe, and helpful yoga guidance\n- Answer questions about yoga poses, breathing techniques, and meditation\n- Offer modifications for different skill levels\n- Emphasize safety and proper alignment\n- Share yoga philosophy and wisdom when relevant\n\nAlways be supportive, encouraging, and mindful of the student's wellbeing. Use the provided context to give accurate answers, and if you're unsure, admit it rather than making up information.\n\nStart responses with \"Namaste 🙏\" occasionally to maintain the yoga teacher persona."

/-- Fallback text returned by RAGEngine.get_response when any step of the
pipeline raises (rag_engine.py line 132). -/
def FALLBACK : String :=
  "I apologize, but I encountered an error processing your question. Please try again or rephrase your question."

/-- Chat message: a role tag and text content. -/
structure Message where
  role : String
  content : String
deriving DecidableEq, Repr

/-- Conversion of a FAISS L2 distance to a similarity score
(vectorstore.py line 118): similarity = 1 / (1 + distance). -/
def similarity (distance : ℚ) : ℚ := 1 / (1 + distance)

/-- Python list access metadata[idx] with a possibly negative index:
0 ≤ idx reads from the front (out of range gives IndexError, modelled as
none), -len ≤ idx < 0 reads position len + idx from the back, and
idx < -len raises IndexError. -/
def pyGet (metadata : List String) (idx : ℤ) : Option String :=
  if 0 ≤ idx then metadata.get? idx.toNat
  else if -(metadata.length : ℤ) ≤ idx then
    metadata.get? (metadata.length - (-idx).toNat)
  else none

/-- Result-assembly loop of VectorStore.search (vectorstore.py lines
113-126), over the (index, distance) pairs returned by the FAISS index
for the query vector.  A pair whose index passes the `idx < len(metadata)`
check and whose similarity reaches the threshold contributes
(document, similarity); none models an exception escaping search (the
except block at lines 128-130 re-raises). -/
def search (metadata : List String) (threshold : ℚ) :
    List (ℤ × ℚ) → Option (List (String × ℚ))
  | [] => some []
  | (idx, distance) :: rest =>
    if idx < (metadata.length : ℤ) then
      if threshold ≤ similarity distance then
        match pyGet metadata idx, search metadata threshold rest with
        | some doc, some tail => some ((doc, similarity distance) :: tail)
        | _, _ => none
      else search metadata threshold rest
    else search metadata threshold rest

/-- Sentinel returned by VectorStore.get_context when no result passes the
threshold (vectorstore.py line 146). -/
def NO_INFO : String := "No relevant information found in the knowledge base."

/-- Formatting step of VectorStore.get_context (vectorstore.py lines 143-152)
applied to the result list of the inner search call; fmt stands for the
two-decimal float rendering applied to the relevance score. -/
def get_context (fmt : ℚ → String) (results : List (String × ℚ)) : String :=
  if results.isEmpty then NO_INFO
  else String.intercalate "\n"
    ((List.enumFrom 1 results).map (fun p =>
      "[Source " ++ toString p.1 ++ "] (Relevance: " ++ fmt p.2.2 ++ ")\n"
        ++ p.2.1 ++ "\n"))

/-- Citation truncation of VectorStore.get_sources (vectorstore.py line 166):
a document longer than 100 characters is cut to its first 100 characters with
an ellipsis appended, a shorter one is kept verbatim. -/
def truncateDoc (doc : String) : String :=
  if 100 < doc.length then doc.take 100 ++ "..." else doc

/-- VectorStore.get_sources (vectorstore.py lines 154-166): runs the same
search and returns the truncated document of every kept result, in order. -/
def get_sources (metadata : List String) (threshold : ℚ)
    (pairs : List (ℤ × ℚ)) : Option (List String) :=
  (search metadata threshold pairs).map (fun results =>
    results.map (fun r => truncateDoc r.1))

/-- RAGEngine.format_conversation_history (rag_engine.py lines 29-44): keeps
only the most recent MAX_HISTORY_LENGTH * 2 messages of the history. -/
def format_conversation_history (history : List Message) : List Message :=
  if MAX_HISTORY_LENGTH * 2 < history.length then
    history.drop (history.length - MAX_HISTORY_LENGTH * 2)
  else history

/-- Context-augmented final user message of RAGEngine.build_prompt
(rag_engine.py lines 70-77). -/
def userTemplate (query context : String) : String :=
  "Based on the following context from the yoga knowledge base, please answer the question.\n\nContext:\n"
    ++ context
    ++ "\n\nQuestion: " ++ query
    ++ "\n\nPlease provide a helpful, accurate response based on the context above. If the context doesn't contain enough information to fully answer the question, you can supplement with your general yoga knowledge, but prioritize the provided context."

/-- RAGEngine.build_prompt (rag_engine.py lines 46-84): the fixed system
message, then the trimmed conversation history, then the templated user
message carrying the retrieved context and the query. -/
def build_prompt (query context : String)
    (conversation_history : List Message) : List Message :=
  ⟨"system", SYSTEM_PROMPT⟩ ::
    (format_conversation_history conversation_history
      ++ [⟨"user", userTemplate query context⟩])

/-- RAGEngine.get_response (rag_engine.py lines 86-133).  The external
collaborators appear as parameters: contextSearch and sourcesSearch are the
outcomes of the two VectorStore search calls behind get_context and
get_sources (lines 107-108), and complete is the outcome of the Groq
chat-completion call as a function of the messages sent (lines 115-124);
none models a raised exception.  The except block (lines 129-133) converts
any raise inside the try block into the fixed fallback response paired with
an empty source list. -/
def get_response (fmt : ℚ → String) (query : String) (history : List Message)
    (contextSearch sourcesSearch : Option (List (String × ℚ)))
    (complete : List Message → Option String) : String × List String :=
  match contextSearch with
  | none => (FALLBACK, [])
  | some cr =>
    match sourcesSearch with
    | none => (FALLBACK, [])
    | some sr =>
      match complete (build_prompt query (get_context fmt cr) history) with
      | none => (FALLBACK, [])
      | some response => (response, sr.map (fun r => truncateDoc r.1))

/-- In-memory conversation storage (app.py line 34), modelled as an
insertion-ordered association list with unique keys, matching a Python
dict from session id to message list. -/
abbrev Store := List (String × List Message)

/-- Python `conversations[session_id]` read / `in` test. -/
def lookupSession : Store → String → Option (List Message)
  | [], _ => none
  | (k, v) :: rest, sid => if k = sid then some v else lookupSession rest sid

/-- Python `conversations[session_id] = h`: replace the value at an existing
key in place, or append a new entry. -/
def setSession : Store → String → List Message → Store
  | [], sid, h => [(sid, h)]
  | (k, v) :: rest, sid, h =>
    if k = sid then (k, h) :: rest else (k, v) :: setSession rest sid h

/-- Python `del conversations[session_id]` on a dict with unique keys. -/
def delSession : Store → String → Store
  | [], _ => []
  | (k, v) :: rest, sid =>
    if k = sid then rest else (k, v) :: delSession rest sid

/-- History update of a completed chat turn (app.py lines 106-117): append
the user message and the assistant response, then keep only the last 20
messages. -/
def appendTurn (history : List Message) (userMessage response : String) :
    List Message :=
  let h := history ++ [⟨"user", userMessage⟩, ⟨"assistant", response⟩]
  if 20 < h.length then h.drop (h.length - 20) else h

/-- Chat endpoint turn on one session after input validation (app.py lines
92-117), with the RAG response computation passed in as getResp: create the
session if absent, read its history, compute the response and sources, then
append the exchange and truncate.  Returns the updated store, the response
text and the sources. -/
def chat (store : Store) (session_id message : String)
    (getResp : List Message → String × List String) :
    Store × String × List String :=
  let store1 := if (lookupSession store session_id).isSome then store
    else store ++ [(session_id, [])]
  let history := (lookupSession store1 session_id).getD []
  let rs := getResp history
  let newHist := appendTurn history message rs.1
  (setSession store1 session_id newHist, rs.1, rs.2)

/-- Clear-conversation endpoint (app.py lines 144-151): delete the session
entry when present, report not-found otherwise. -/
def clear_conversation (store : Store) (session_id : String) :
    Store × String :=
  if (lookupSession store session_id).isSome then
    (delSession store session_id,
      "Conversation " ++ session_id ++ " cleared")
  else (store, "Conversation " ++ session_id ++ " not found")

/-- History of one session after a sequence of completed turns, each turn
given by its user message and assistant response (app.py lines 106-117
applied in order, starting from the empty history of a fresh session). -/
def runTurns (turns : List (String × String)) : List Message :=
  turns.foldl (fun h t => appendTurn h t.1 t.2) []

theorem similarity_anti (d e : ℚ) (hd : 0 ≤ d) (hde : d ≤ e) :
    similarity e ≤ similarity d := by
  unfold similarity
  exact one_div_le_one_div_of_le (by linarith) (by linarith)

theorem similarity_unit (d : ℚ) (hd : 0 ≤ d) :
    0 ≤ similarity d ∧ similarity d ≤ 1 := by
  constructor
  · unfold similarity; positivity
  · have h := similarity_anti 0 d le_rfl hd
    simpa [similarity] using h

/-- Every result produced by the search loop reaches the threshold and
stems from an in-bounds-checked pair of the index output. -/
theorem search_mem_spec (metadata : List String) (t : ℚ) :
    ∀ (pairs : List (ℤ × ℚ)) (results : List (String × ℚ)),
      search metadata t pairs = some results →
      ∀ r ∈ results, t ≤ r.2 ∧
        ∃ p ∈ pairs, r.2 = similarity p.2 ∧ p.1 < (metadata.length : ℤ) := by
  intro pairs
  induction pairs with
  | nil =>
    intro results h r hr
    simp only [search, Option.some.injEq] at h
    subst h
    simp at hr
  | cons hd tl ih =>
    intro results h r hr
    obtain ⟨idx, distance⟩ := hd
    simp only [search] at h
    by_cases hidx : idx < (metadata.length : ℤ)
    · rw [if_pos hidx] at h
      by_cases hsim : t ≤ similarity distance
      · rw [if_pos hsim] at h
        rcases hpg : pyGet metadata idx with _ | doc <;> rw [hpg] at h
        · simp at h
        · rcases htl : search metadata t tl with _ | tail <;> rw [htl] at h
          · simp at h
          · simp only [Option.some.injEq] at h
            subst h
            rcases List.mem_cons.mp hr with heq | hmem
            · subst heq
              exact ⟨hsim, ⟨(idx, distance), List.mem_cons_self _ _, rfl, hidx⟩⟩
            · obtain ⟨h1, p, hp, h2⟩ := ih tail htl r hmem
              exact ⟨h1, p, List.mem_cons_of_mem _ hp, h2⟩
      · rw [if_neg hsim] at h
        obtain ⟨h1, p, hp, h2⟩ := ih results h r hr
        exact ⟨h1, p, List.mem_cons_of_mem _ hp, h2⟩
    · rw [if_neg hidx] at h
      obtain ⟨h1, p, hp, h2⟩ := ih results h r hr
      exact ⟨h1, p, List.mem_cons_of_mem _ hp, h2⟩

/-- C1: every result returned by search has similarity at least the
threshold, and a query none of whose candidate pairs passes the threshold
yields some [] — the empty result list, not a raised error. -/
theorem search_respects_threshold (metadata : List String) (t : ℚ)
    (pairs : List (ℤ × ℚ)) :
    (∀ results, search metadata t pairs = some results →
      ∀ r ∈ results, t ≤ r.2) ∧
    ((∀ p ∈ pairs, similarity p.2 < t) →
      search metadata t pairs = some []) := by
  constructor
  · intro results h r hr
    exact (search_mem_spec metadata t pairs results h r hr).1
  · intro hlow
    induction pairs with
    | nil => rfl
    | cons hd tl ih =>
      obtain ⟨idx, distance⟩ := hd
      have hd_low : similarity distance < t := hlow (idx, distance) (by simp)
      have htl : search metadata t tl = some [] :=
        ih (fun p hp => hlow p (List.mem_cons_of_mem _ hp))
      simp only [search, not_le.mpr hd_low, if_false, htl]
      split <;> rfl

/-- Witness for C1 at concrete inputs: the single kept result of one
search reaches the threshold, and a search whose only candidate has
similarity 1/3 < 1/2 returns the empty list. -/
theorem search_respects_threshold_witness :
    ((1 : ℚ)/2 ≤ (("a", (1 : ℚ)) : String × ℚ).2) ∧
    search ["a"] SIMILARITY_THRESHOLD [((0 : ℤ), (2 : ℚ))] = some [] := by
  constructor
  · exact (search_respects_threshold ["a"] (1/2) [((0 : ℤ), (0 : ℚ))]).1
      [("a", 1)] (by norm_num [search, similarity, pyGet]) ("a", 1) (by simp)
  · exact (search_respects_threshold ["a"] SIMILARITY_THRESHOLD
      [((0 : ℤ), (2 : ℚ))]).2
      (by norm_num [similarity, SIMILARITY_THRESHOLD])

/-- C2 counterexample: a FAISS padding index of -1 with distance 0 passes
the `idx < len(metadata)` check, and Python negative indexing returns the
last document, so search returns a result for a negative index instead of
skipping it. -/
theorem search_negative_index_cex :
    search ["a"] SIMILARITY_THRESHOLD [((-1 : ℤ), (0 : ℚ))] =
      some [("a", 1)] ∧
    search ["a"] SIMILARITY_THRESHOLD [((-1 : ℤ), (0 : ℚ))] ≠ some [] := by
  constructor
  · norm_num [search, similarity, pyGet, SIMILARITY_THRESHOLD]
  · norm_num [search, similarity, pyGet, SIMILARITY_THRESHOLD]

/-- C2 amended: pairs whose index is at least the metadata length are
skipped — removing them from the index output does not change the result
of search (so they are neither returned nor fatal); negative indices are
not covered by the bounds check. -/
theorem search_skips_oob_only (metadata : List String) (t : ℚ)
    (pairs : List (ℤ × ℚ)) :
    search metadata t pairs =
      search metadata t
        (pairs.filter (fun p => decide (p.1 < (metadata.length : ℤ)))) := by
  induction pairs with
  | nil => rfl
  | cons hd tl ih =>
    obtain ⟨idx, distance⟩ := hd
    by_cases hidx : idx < (metadata.length : ℤ)
    · rw [List.filter_cons_of_pos (by simpa using hidx)]
      simp only [search, if_pos hidx, ih]
    · rw [List.filter_cons_of_neg (by simpa using hidx)]
      simp only [search, if_neg hidx, ih]

/-- Helper: element i of a mapped enumeration is the function applied to the
offset index and element i of the underlying list. -/
theorem enumFrom_map_get (f : ℕ × (String × ℚ) → String) :
    ∀ (l : List (String × ℚ)) (s i : ℕ),
      ((List.enumFrom s l).map f).get? i =
        (l.get? i).map (fun a => f (s + i, a)) := by
  intro l
  induction l with
  | nil => intro s i; simp
  | cons a l ih =>
    intro s i
    cases i with
    | zero => simp [List.enumFrom]
    | succ n =>
      have h1 : List.enumFrom s (a :: l) = (s, a) :: List.enumFrom (s + 1) l :=
        rfl
      rw [h1, List.map_cons, List.get?_cons_succ, List.get?_cons_succ,
        ih (s + 1) n]
      have h2 : s + 1 + n = s + (n + 1) := by omega
      rw [h2]

/-- C3: get_context of an empty result list is exactly the sentinel string; of
a non-empty result list it is the newline-join of one block per result in
result order, block i (counted from 1) being exactly the text
"[Source i] (Relevance: score)" followed by the document on its own lines. -/
theorem get_context_spec (fmt : ℚ → String) (results : List (String × ℚ)) :
    get_context fmt [] = "No relevant information found in the knowledge base." ∧
    (results ≠ [] → ∃ blocks : List String,
      get_context fmt results = String.intercalate "\n" blocks ∧
      blocks.length = results.length ∧
      ∀ i doc score, results.get? i = some (doc, score) →
        blocks.get? i = some ("[Source " ++ toString (i + 1) ++ "] (Relevance: "
          ++ fmt score ++ ")\n" ++ doc ++ "\n")) := by
  constructor
  · rfl
  · intro hne
    refine ⟨(List.enumFrom 1 results).map (fun p =>
      "[Source " ++ toString p.1 ++ "] (Relevance: " ++ fmt p.2.2 ++ ")\n"
        ++ p.2.1 ++ "\n"), ?_, ?_, ?_⟩
    · simp [get_context, List.isEmpty_eq_false_iff_exists_mem, hne]
    · simp
    · intro i doc score hi
      rw [enumFrom_map_get]
      simp only [hi, Option.map_some']
      rw [Nat.add_comm 1 i]

/-- Witness for C3 at a one-element result list and the empty list. -/
theorem get_context_spec_witness :
    get_context (fun _ => "1.00") ([] : List (String × ℚ)) =
      "No relevant information found in the knowledge base." ∧
    (∃ blocks : List String,
      get_context (fun _ => "1.00") [("doc", (1 : ℚ))] =
        String.intercalate "\n" blocks ∧
      blocks.length = ([("doc", (1 : ℚ))] : List (String × ℚ)).length ∧
      ∀ i doc score,
        ([(("doc" : String), (1 : ℚ))]).get? i = some (doc, score) →
        blocks.get? i = some ("[Source " ++ toString (i + 1) ++ "] (Relevance: "
          ++ (fun (_ : ℚ) => "1.00") score ++ ")\n" ++ doc ++ "\n")) :=
  ⟨(get_context_spec (fun _ => "1.00") [("doc", (1 : ℚ))]).1,
   (get_context_spec (fun _ => "1.00") [("doc", (1 : ℚ))]).2 (by simp)⟩

/-- C9: get_sources returns one string per kept search result, in result
order, each document being truncated to its first 100 characters with an
ellipsis when longer than 100 characters and kept verbatim otherwise. -/
theorem get_sources_spec (metadata : List String) (t : ℚ)
    (pairs : List (ℤ × ℚ)) (results : List (String × ℚ))
    (hok : search metadata t pairs = some results) :
    get_sources metadata t pairs =
      some (results.map (fun r => truncateDoc r.1)) ∧
    (∀ doc : String, 100 < doc.length →
      truncateDoc doc = doc.take 100 ++ "...") ∧
    (∀ doc : String, doc.length ≤ 100 → truncateDoc doc = doc) := by
  refine ⟨?_, fun doc h => if_pos h, fun doc h => if_neg (not_lt.mpr h)⟩
  rw [get_sources, hok, Option.map_some']

/-- Witness for C9: a 150-character document is cut to 100 characters plus an
ellipsis, a short document is kept verbatim. -/
theorem get_sources_spec_witness :
    get_sources [String.mk (List.replicate 150 'a')] SIMILARITY_THRESHOLD
        [((0 : ℤ), (0 : ℚ))] =
      some [String.mk (List.replicate 100 'a') ++ "..."] ∧
    truncateDoc "short" = "short" := by
  have h := get_sources_spec [String.mk (List.replicate 150 'a')]
    SIMILARITY_THRESHOLD [((0 : ℤ), (0 : ℚ))]
    [(String.mk (List.replicate 150 'a'), 1)]
    (by norm_num [search, similarity, pyGet, SIMILARITY_THRESHOLD])
  constructor
  · rw [h.1, List.map_cons, List.map_nil,
      h.2.1 (String.mk (List.replicate 150 'a')) (by decide)]
    decide
  · exact h.2.2 "short" (by decide)

/-- Helper: on index output sorted by ascending distance with nonnegative
distances, the search results are sorted by descending similarity. -/
theorem search_pairwise_aux (metadata : List String) (t : ℚ) :
    ∀ (pairs : List (ℤ × ℚ)) (results : List (String × ℚ)),
      (∀ p ∈ pairs, 0 ≤ p.2) →
      pairs.Pairwise (fun a b => a.2 ≤ b.2) →
      search metadata t pairs = some results →
      results.Pairwise (fun a b => b.2 ≤ a.2) := by
  intro pairs
  induction pairs with
  | nil =>
    intro results _ _ h
    simp only [search, Option.some.injEq] at h
    subst h
    exact List.Pairwise.nil
  | cons hd tl ih =>
    intro results hnn hsorted h
    obtain ⟨idx, distance⟩ := hd
    rw [List.pairwise_cons] at hsorted
    obtain ⟨hhead, htlsorted⟩ := hsorted
    have hnn_tl : ∀ p ∈ tl, 0 ≤ p.2 :=
      fun p hp => hnn p (List.mem_cons_of_mem _ hp)
    have hd_nn : 0 ≤ distance := hnn (idx, distance) (List.mem_cons_self _ _)
    simp only [search] at h
    by_cases hidx : idx < (metadata.length : ℤ)
    · rw [if_pos hidx] at h
      by_cases hsim : t ≤ similarity distance
      · rw [if_pos hsim] at h
        rcases hpg : pyGet metadata idx with _ | doc <;> rw [hpg] at h
        · simp at h
        · rcases htl : search metadata t tl with _ | tail <;> rw [htl] at h
          · simp at h
          · simp only [Option.some.injEq] at h
            subst h
            rw [List.pairwise_cons]
            refine ⟨?_, ih tail hnn_tl htlsorted htl⟩
            intro r hr
            obtain ⟨_, p, hp, hps, _⟩ :=
              search_mem_spec metadata t tl tail htl r hr
            rw [hps]
            exact similarity_anti distance p.2 hd_nn (hhead p hp)
      · rw [if_neg hsim] at h
        exact ih results hnn_tl htlsorted h
    · rw [if_neg hidx] at h
      exact ih results hnn_tl htlsorted h

/-- C7: the similarity score 1/(1+distance) lies in [0,1] for nonnegative
distances and is monotonically decreasing in the distance; consequently, when
the index returns neighbors in ascending distance order, search returns its
results ordered most-similar first (non-increasing similarity). -/
theorem search_ordered_by_similarity (metadata : List String) (t : ℚ)
    (pairs : List (ℤ × ℚ)) (results : List (String × ℚ))
    (hnn : ∀ p ∈ pairs, 0 ≤ p.2)
    (hsorted : pairs.Pairwise (fun a b => a.2 ≤ b.2))
    (hok : search metadata t pairs = some results) :
    (∀ d : ℚ, 0 ≤ d → 0 ≤ similarity d ∧ similarity d ≤ 1) ∧
    (∀ d e : ℚ, 0 ≤ d → d ≤ e → similarity e ≤ similarity d) ∧
    results.Pairwise (fun a b => b.2 ≤ a.2) :=
  ⟨fun d hd => similarity_unit d hd,
   fun d e hd hde => similarity_anti d e hd hde,
   search_pairwise_aux metadata t pairs results hnn hsorted hok⟩

/-- Witness for C7 at a two-result search with ascending distances 0 and 1. -/
theorem search_ordered_by_similarity_witness :
    (0 ≤ similarity 1 ∧ similarity 1 ≤ 1) ∧
    ([(("a" : String), (1 : ℚ)), ("b", 1/2)]).Pairwise
      (fun a b => b.2 ≤ a.2) := by
  have h := search_ordered_by_similarity ["a", "b"] SIMILARITY_THRESHOLD
    [((0 : ℤ), (0 : ℚ)), ((1 : ℤ), (1 : ℚ))] [("a", 1), ("b", 1/2)]
    (by norm_num) (by norm_num [List.pairwise_cons])
    (by norm_num [search, similarity, pyGet, SIMILARITY_THRESHOLD])
  exact ⟨h.1 1 (by norm_num), h.2.2⟩

/-- C6: any failure downstream of input validation — a raised search behind
get_context, a raised search behind get_sources, or a raised completion
call — makes get_response return the fixed apologetic fallback text paired
with an empty source list instead of crashing the turn. -/
theorem get_response_fallback (fmt : ℚ → String) (query : String)
    (history : List Message)
    (contextSearch sourcesSearch : Option (List (String × ℚ)))
    (complete : List Message → Option String)
    (hfail : contextSearch = none ∨ sourcesSearch = none ∨
      ∀ msgs, complete msgs = none) :
    get_response fmt query history contextSearch sourcesSearch complete =
      (FALLBACK, []) := by
  rcases hfail with h | h | h
  · simp [get_response, h]
  · cases contextSearch <;> simp [get_response, h]
  · cases contextSearch <;> cases sourcesSearch <;> simp [get_response, h]

/-- Witness for C6: a failing embedding (context search returns none) at a
concrete query yields the fallback with empty sources. -/
theorem get_response_fallback_witness :
    get_response (fun _ => "") "What is yoga?" [] none (some [])
      (fun _ => some "ok") = (FALLBACK, []) :=
  get_response_fallback (fun _ => "") "What is yoga?" [] none (some [])
    (fun _ => some "ok") (Or.inl rfl)

/-- C8: build_prompt is a pure function returning the fixed system message,
then exactly the most recent MAX_HISTORY_LENGTH * 2 messages of the given
history (the whole history unchanged when it is shorter), then a final
user message containing the context and the query in the fixed template. -/
theorem build_prompt_spec (query context : String) (history : List Message) :
    build_prompt query context history =
      ⟨"system", SYSTEM_PROMPT⟩ ::
        (history.drop (history.length - MAX_HISTORY_LENGTH * 2)
          ++ [⟨"user", userTemplate query context⟩]) ∧
    (history.length ≤ MAX_HISTORY_LENGTH * 2 →
      format_conversation_history history = history) ∧
    (history.drop (history.length - MAX_HISTORY_LENGTH * 2)).length =
      min history.length (MAX_HISTORY_LENGTH * 2) := by
  refine ⟨?_, ?_, ?_⟩
  · by_cases hgt : MAX_HISTORY_LENGTH * 2 < history.length
    · simp only [build_prompt, format_conversation_history, if_pos hgt]
    · simp only [build_prompt, format_conversation_history, if_neg hgt]
      have h0 : history.length - MAX_HISTORY_LENGTH * 2 = 0 := by omega
      rw [h0, List.drop_zero]
  · intro hle
    simp only [format_conversation_history]
    rw [if_neg (by omega)]
  · rw [List.length_drop]
    omega

/-- Witness for C8: a history shorter than the cap is passed unchanged. -/
theorem build_prompt_spec_witness :
    format_conversation_history [⟨"user", "hi"⟩] = [⟨"user", "hi"⟩] :=
  (build_prompt_spec "q" "ctx" [⟨"user", "hi"⟩]).2.1
    (by norm_num [MAX_HISTORY_LENGTH])

/-- Helper: writing a session then reading it back yields the written
history. -/
theorem lookup_set_self : ∀ (s : Store) (k : String) (v : List Message),
    lookupSession (setSession s k v) k = some v
  | [], k, v => by simp [setSession, lookupSession]
  | (p, w) :: rest, k, v => by
    by_cases hpk : p = k
    · simp [setSession, hpk, lookupSession]
    · simp only [setSession, if_neg hpk, lookupSession]
      exact lookup_set_self rest k v

/-- Helper: writing one session leaves the lookup of any other unchanged. -/
theorem lookup_set_ne : ∀ (s : Store) (k q : String) (v : List Message),
    q ≠ k → lookupSession (setSession s k v) q = lookupSession s q
  | [], k, q, v, hne => by
    simp [setSession, lookupSession, Ne.symm hne]
  | (p, w) :: rest, k, q, v, hne => by
    by_cases hpk : p = k
    · have hpq : ¬p = q := by rw [hpk]; exact Ne.symm hne
      simp only [setSession, if_pos hpk, lookupSession, if_neg hpq]
    · simp only [setSession, if_neg hpk, lookupSession]
      rw [lookup_set_ne rest k q v hne]

/-- Helper: deleting one session leaves the lookup of any other unchanged. -/
theorem lookup_del_ne : ∀ (s : Store) (k q : String),
    q ≠ k → lookupSession (delSession s k) q = lookupSession s q
  | [], _, _, _ => rfl
  | (p, w) :: rest, k, q, hne => by
    by_cases hpk : p = k
    · have hpq : ¬p = q := by rw [hpk]; exact Ne.symm hne
      simp only [delSession, if_pos hpk, lookupSession, if_neg hpq]
    · simp only [delSession, if_neg hpk, lookupSession]
      rw [lookup_del_ne rest k q hne]

/-- Helper: lazily creating an absent session makes its lookup the empty
history. -/
theorem lookup_append_none : ∀ (s : Store) (k : String) (v : List Message),
    lookupSession s k = none → lookupSession (s ++ [(k, v)]) k = some v
  | [], k, v, _ => by simp [lookupSession]
  | (p, w) :: rest, k, v, hn => by
    by_cases hpk : p = k
    · simp [lookupSession, hpk] at hn
    · simp only [lookupSession, if_neg hpk] at hn
      simp only [List.cons_append, lookupSession, if_neg hpk]
      exact lookup_append_none rest k v hn

/-- Helper: lazily creating one session leaves the lookup of any other
unchanged. -/
theorem lookup_append_ne : ∀ (s : Store) (k q : String) (v : List Message),
    q ≠ k → lookupSession (s ++ [(k, v)]) q = lookupSession s q
  | [], k, q, v, hne => by
    simp [lookupSession, Ne.symm hne]
  | (p, w) :: rest, k, q, v, hne => by
    by_cases hpq : p = q
    · simp [lookupSession, hpq]
    · simp only [List.cons_append, lookupSession, if_neg hpq]
      exact lookup_append_ne rest k q v hne

/-- Helper: the length of the history after one completed turn is the old
length plus two, capped at 20. -/
theorem appendTurn_length (h : List Message) (u a : String) :
    (appendTurn h u a).length = min (h.length + 2) 20 := by
  simp only [appendTurn]
  split
  · rename_i hgt
    rw [List.length_drop]
    rw [List.length_append] at hgt ⊢
    simp only [List.length_cons, List.length_nil] at hgt ⊢
    omega
  · rename_i hgt
    rw [List.length_append] at hgt ⊢
    simp only [List.length_cons, List.length_nil] at hgt ⊢
    omega

/-- Helper: one completed turn preserves the history cap and evenness. -/
theorem appendTurn_bounds (h : List Message) (u a : String)
    (hlen : h.length ≤ 20) (heven : h.length % 2 = 0) :
    (appendTurn h u a).length ≤ 20 ∧ (appendTurn h u a).length % 2 = 0 := by
  rw [appendTurn_length]
  rw [Nat.min_def]
  split <;> omega

/-- Helper: the turn-sequence fold preserves the history cap and evenness. -/
theorem runTurns_aux (turns : List (String × String)) :
    ∀ h : List Message, h.length ≤ 20 → h.length % 2 = 0 →
      (turns.foldl (fun acc t => appendTurn acc t.1 t.2) h).length ≤ 20 ∧
      (turns.foldl (fun acc t => appendTurn acc t.1 t.2) h).length % 2 = 0 := by
  induction turns with
  | nil => intro h h1 h2; exact ⟨h1, h2⟩
  | cons t ts ih =>
    intro h h1 h2
    have hb := appendTurn_bounds h t.1 t.2 h1 h2
    simp only [List.foldl_cons]
    exact ih _ hb.1 hb.2

/-- C4: after any sequence of completed chat turns the stored history has at
most 20 messages and an even number of them, and each completed turn keeps
exactly the most recent 20 messages: it appends the user and assistant
messages and drops the oldest messages beyond the last 20. -/
theorem history_invariant (turns : List (String × String)) :
    (runTurns turns).length ≤ 20 ∧ (runTurns turns).length % 2 = 0 ∧
    ∀ (h : List Message) (u a : String),
      appendTurn h u a =
        (h ++ [Message.mk "user" u, Message.mk "assistant" a]).drop
          ((h.length + 2) - 20) := by
  obtain ⟨h1, h2⟩ := runTurns_aux turns [] (by simp) (by simp)
  refine ⟨h1, h2, fun h u a => ?_⟩
  simp only [appendTurn]
  have hlen : (h ++ [Message.mk "user" u, Message.mk "assistant" a]).length =
      h.length + 2 := by
    rw [List.length_append]
    simp
  rw [hlen]
  split
  · rfl
  · rename_i hgt
    have h0 : h.length + 2 - 20 = 0 := by omega
    rw [h0, List.drop_zero]

/-- Helper: get_response with a raising completion call yields the fallback
with empty sources, whatever the retrieval outcomes were. -/
theorem get_response_complete_none (fmt : ℚ → String) (query : String)
    (history : List Message) (cs ss : Option (List (String × ℚ))) :
    get_response fmt query history cs ss (fun _ => none) = (FALLBACK, []) := by
  cases cs <;> cases ss <;> rfl

/-- C5 counterexample: starting from an empty store, a turn whose completion
call raises returns the fallback with empty sources, yet the session history
after the call holds the recorded exchange [user message, fallback] — it
does not equal the (empty) history from before the call. -/
theorem chat_completion_failure_cex :
    (chat [] "s" "hello"
      (fun h => get_response (fun _ => "") "hello" h (some []) (some [])
        (fun _ => none))).2.1 = FALLBACK ∧
    (chat [] "s" "hello"
      (fun h => get_response (fun _ => "") "hello" h (some []) (some [])
        (fun _ => none))).2.2 = [] ∧
    lookupSession (chat [] "s" "hello"
      (fun h => get_response (fun _ => "") "hello" h (some []) (some [])
        (fun _ => none))).1 "s" =
      some [⟨"user", "hello"⟩, ⟨"assistant", FALLBACK⟩] ∧
    lookupSession ([] : Store) "s" = none :=
  ⟨rfl, rfl, rfl, rfl⟩

/-- C5 amended: when the completion API raises during a chat turn, the
returned response equals the fixed fallback text and the returned sources
are empty, but the exchange is still recorded: the endpoint appends the
user message and the fallback response to the session history, because
get_response converts the failure internally and the endpoint observes an
ordinary response. -/
theorem chat_completion_failure_spec (store : Store) (sid msg : String)
    (fmt : ℚ → String) (cs ss : Option (List (String × ℚ))) :
    (chat store sid msg
      (fun h => get_response fmt msg h cs ss (fun _ => none))).2.1 =
        FALLBACK ∧
    (chat store sid msg
      (fun h => get_response fmt msg h cs ss (fun _ => none))).2.2 = [] ∧
    lookupSession (chat store sid msg
      (fun h => get_response fmt msg h cs ss (fun _ => none))).1 sid =
      some (appendTurn ((lookupSession store sid).getD []) msg FALLBACK) := by
  have hfb : ∀ h : List Message,
      get_response fmt msg h cs ss (fun _ => none) = (FALLBACK, []) :=
    fun h => get_response_complete_none fmt msg h cs ss
  simp only [chat, hfb]
  refine ⟨trivial, trivial, ?_⟩
  rw [lookup_set_self]
  by_cases hp : (lookupSession store sid).isSome
  · rw [if_pos hp]
  · rw [if_neg hp]
    rw [Option.not_isSome_iff_eq_none] at hp
    rw [lookup_append_none store sid [] hp, hp]
    rfl

/-- C10: store operations touch only the named session: clearing a session
leaves every other session unchanged, and a chat turn on one session id
leaves the histories of all other sessions unchanged. -/
theorem session_frame (store : Store) (sid other msg : String)
    (getResp : List Message → String × List String) (hne : other ≠ sid) :
    lookupSession (clear_conversation store sid).1 other =
      lookupSession store other ∧
    lookupSession (chat store sid msg getResp).1 other =
      lookupSession store other := by
  constructor
  · simp only [clear_conversation]
    by_cases hp : (lookupSession store sid).isSome
    · rw [if_pos hp]
      exact lookup_del_ne store sid other hne
    · rw [if_neg hp]
  · simp only [chat]
    by_cases hp : (lookupSession store sid).isSome
    · rw [if_pos hp, lookup_set_ne _ _ _ _ hne]
    · rw [if_neg hp, lookup_set_ne _ _ _ _ hne,
        lookup_append_ne _ _ _ _ hne]

/-- Witness for C10 at a concrete store with two distinct session ids. -/
theorem session_frame_witness :
    lookupSession (clear_conversation [("a", [])] "a").1 "b" =
      lookupSession [("a", ([] : List Message))] "b" ∧
    lookupSession (chat [("a", [])] "a" "q" (fun _ => ("r", []))).1 "b" =
      lookupSession [("a", ([] : List Message))] "b" :=
  session_frame [("a", [])] "a" "b" "q" (fun _ => ("r", [])) (by decide)

end YogaTeacher
